import Mathlib

/-!
Verification of `vfx.py`, a small video frame-extraction tool driving
ffmpeg/ffprobe.  The Python source is shallowly embedded: floats are
modelled as rationals, Python exceptions as `Except PyErr`, and the
external-process side effects (ffprobe queries, ffmpeg invocations,
output-directory allocation) as an explicit event trace.  Directory
creation (`os.makedirs`) and the textual output-file names are elided;
everything the claims speak about (schedules, filter strings, exit-code
handling, control flow, batch behaviour) is modelled faithfully.
-/

namespace Vfx

/-- Python exceptions that the embedded code can raise. -/
inductive PyErr
  | valueError      -- float() applied to a non-numeric string
  | zeroDivision    -- division by zero
  deriving DecidableEq, Repr

/-- Python float division `a / b`: raises ZeroDivisionError when `b = 0`. -/
def pyDiv (a b : ℚ) : Except PyErr ℚ :=
  if b = 0 then .error .zeroDivision else .ok (a / b)

/-- Model of `float(result.stdout)` applied to the ffprobe output:
`none` stands for non-numeric or empty stdout, on which Python raises
ValueError. -/
def parseFloat (o : Option ℚ) : Except PyErr ℚ :=
  match o with
  | none => .error .valueError
  | some d => .ok d

/-- Lines 46-51 and 83-88 of vfx.py: append the scaling directive to
`vf_args` (`if width > 0 and height > 0: ... elif width > 0: ...
elif height > 0: ...`). -/
def appendScale (vf_args : String) (width height : ℤ) : String :=
  if 0 < width ∧ 0 < height then vf_args ++ s!",scale={width}:{height}"
  else if 0 < width then vf_args ++ s!",scale={width}:-1"
  else if 0 < height then vf_args ++ s!",scale=-1:{height}"
  else vf_args

/-- Line 45 of vfx.py: the per-timestamp selection filter of the fallback
path, `select='gte(t\,{timestamp})',setpts=PTS-STARTPTS`. -/
def selectVf (timestamp : ℚ) : String :=
  s!"select=\x27gte(t\\,{timestamp})\x27,setpts=PTS-STARTPTS"

/-- Observable external effects of processing files. -/
inductive Ev
  | probe (file : String)                                  -- ffprobe duration query
  | fastRun (file : String) (vf : String)                  -- single-pass ffmpeg call
  | fallbackCall (file : String)                           -- entry into extract_frames_fallback
  | fallbackRun (file : String) (i : ℕ) (timestamp : ℚ) (vf : String)
  | alloc (dir : String)                                   -- output directory chosen
  deriving DecidableEq, Repr

/-- Environment observed while processing one file: the parsed results of
the (up to two) ffprobe calls, the ffmpeg exit statuses, and the glue
inputs (path pieces, prompt answer, already-existing sibling paths). -/
structure FileWorld where
  path : String
  dir : String                  -- os.path.dirname(video_file)
  stem : String                 -- os.path.splitext(os.path.basename(video_file))[0]
  response : Char               -- answer typed at the -P prompt
  existingPaths : List String   -- paths for which os.path.exists is true
  probe1 : Option ℚ             -- parsed ffprobe stdout inside extract_frames
  probe2 : Option ℚ             -- parsed ffprobe stdout inside extract_frames_fallback
  fastExit : ℤ                  -- exit status of the single-pass ffmpeg call
  fallbackExit : ℕ → ℤ          -- exit status of the i-th per-frame ffmpeg call

/-- Lines 31-64 of vfx.py, `extract_frames_fallback`: re-probe the
duration, compute `interval = duration / frame_count`, and run one ffmpeg
invocation per `i in range(frame_count)` at timestamp `i * interval`.
The exit codes of those per-frame runs are not inspected by the code
(`subprocess.run` without `check=True`), hence `fallbackExit` is never
read and the function always returns normally once the schedule exists. -/
def extract_frames_fallback (w : FileWorld) (frame_count width height : ℤ) :
    List Ev × Except PyErr Unit :=
  match parseFloat w.probe2 with
  | .error e => ([.probe w.path], .error e)
  | .ok duration =>
    match pyDiv duration frame_count with
    | .error e => ([.probe w.path], .error e)
    | .ok interval =>
      (Ev.probe w.path ::
        (List.range frame_count.toNat).map (fun i =>
          Ev.fallbackRun w.path i ((i : ℚ) * interval)
            (appendScale (selectVf ((i : ℚ) * interval)) width height)),
       .ok ())

/-- Lines 72-81 of vfx.py: the planning part of the `try` block of
`extract_frames`.  With a positive time interval the rate expression is
`fps=1/{time_interval}` and no probe happens; otherwise the duration is
probed, parsed with `float`, divided by `frame_count`, and the rate is
`fps=1/{interval}`.  ValueError and ZeroDivisionError escape (the
`except` clause at line 105 catches only CalledProcessError). -/
def planFast (w : FileWorld) (frame_count time_interval : ℤ) :
    List Ev × Except PyErr String :=
  if 0 < time_interval then ([], .ok s!"fps=1/{time_interval}")
  else
    match parseFloat w.probe1 with
    | .error e => ([Ev.probe w.path], .error e)
    | .ok duration =>
      match pyDiv duration frame_count with
      | .error e => ([Ev.probe w.path], .error e)
      | .ok interval => ([Ev.probe w.path], .ok s!"fps=1/{interval}")

/-- Lines 66-108 of vfx.py, `extract_frames`: plan the filter, append the
scaling directive, run the single-pass ffmpeg call with `check=True`, and
on CalledProcessError (non-zero exit status) fall through to
`extract_frames_fallback` exactly once. -/
def extract_frames (w : FileWorld) (frame_count time_interval width height : ℤ) :
    List Ev × Except PyErr Unit :=
  match planFast w frame_count time_interval with
  | (evs, .error e) => (evs, .error e)
  | (evs, .ok vf0) =>
    let vf := appendScale vf0 width height
    if w.fastExit ≠ 0 then
      let r := extract_frames_fallback w frame_count width height
      (evs ++ [Ev.fastRun w.path vf, Ev.fallbackCall w.path] ++ r.1, r.2)
    else
      (evs ++ [Ev.fastRun w.path vf], .ok ())

/-- Line 120 of vfx.py: the extension filter
`video_file.endswith(('.mp4', '.mov', '.avi', '.mkv'))`. -/
def hasVideoExt (s : String) : Bool :=
  [".mp4", ".mov", ".avi", ".mkv"].any (fun e => e.data.isSuffixOf s.data)

/-- Model of `os.path.join` for the two-component uses in vfx.py. -/
def joinPath (a b : String) : String := a ++ "/" ++ b

/-- The k-th candidate directory name tried by lines 136-141 of vfx.py:
candidate 0 is the base name itself and candidate k for positive k is
the base with suffix `_k`. -/
def allocCandidate (base : String) : ℕ → String
  | 0 => base
  | Nat.succ k => base ++ "_" ++ Nat.repr (k + 1)

/-- The `while os.path.exists(unique_folder_name)` loop of lines 137-141,
written with explicit fuel (the loop in the source is unbounded; any fuel
larger than the number of existing paths reaches the answer, see
`allocLoop_finds`). -/
def allocLoop (existing : List String) (base : String) :
    String → ℕ → ℕ → String
  | name, _, 0 => name
  | name, counter, Nat.succ fuel =>
    if name ∈ existing then
      allocLoop existing base (base ++ "_" ++ Nat.repr counter) (counter + 1) fuel
    else name

/-- Lines 135-142 of vfx.py: the dedicated-subfolder output path, starting
from the base candidate and appending `_1`, `_2`, ... while the candidate
exists. -/
def allocateOutputDir (existing : List String) (base : String) : String :=
  allocLoop existing base base 1 (existing.length + 1)

/-- Outcome of `process_file` for one file. -/
inductive FileOutcome
  | notVideo     -- extension filter rejected the file
  | skipped      -- prompt answered n
  | aborted      -- prompt answered a (sys.exit)
  | done
  deriving DecidableEq, Repr

/-- Lines 119-144 of vfx.py, `process_file`: extension filter, optional
prompt, output-directory choice (same directory or allocated subfolder),
then `extract_frames`. -/
def process_file (w : FileWorld) (prompt same_dir : Bool)
    (frame_count time_interval width height : ℤ) :
    List Ev × Except PyErr FileOutcome :=
  if ¬ hasVideoExt w.path then ([], .ok .notVideo)
  else if prompt && (w.response == 'n') then ([], .ok .skipped)
  else if prompt && (w.response == 'a') then ([], .ok .aborted)
  else
    let output_dir :=
      if same_dir then w.dir
      else allocateOutputDir w.existingPaths (joinPath w.dir (w.stem ++ "_frames"))
    let r := extract_frames w frame_count time_interval width height
    (Ev.alloc output_dir :: r.1, r.2.map (fun _ => FileOutcome.done))

/-- Lines 110-117 of vfx.py, `process_folder`: process each file in turn.
There is no per-file exception handler, so an uncaught exception in
`process_file` aborts the whole batch; `sys.exit` from the prompt stops
it cleanly. -/
def process_folder (files : List FileWorld) (prompt same_dir : Bool)
    (frame_count time_interval width height : ℤ) :
    List Ev × Except PyErr Unit :=
  match files with
  | [] => ([], .ok ())
  | w :: rest =>
    let r := process_file w prompt same_dir frame_count time_interval width height
    match r.2 with
    | .error e => (r.1, .error e)
    | .ok .aborted => (r.1, .ok ())
    | .ok _ =>
      let r2 := process_folder rest prompt same_dir frame_count time_interval width height
      (r.1 ++ r2.1, r2.2)

/-- Lines 147-159 of vfx.py: the argparse configuration with its default
values.  argparse does not record whether a value was explicitly
supplied, so the parsed record is all later stages ever see. -/
structure Args where
  source : String := "."
  recursive : Bool := false    -- -R
  silent : Bool := false       -- -S
  info : Bool := false         -- -I
  N : ℤ := 16
  T : ℤ := 0
  X : ℤ := 0
  Y : ℤ := 0
  prompt : Bool := false       -- -P
  same_dir : Bool := false     -- -D
  help : Bool := false         -- -H

/-- The record produced when no flag is supplied on the command line. -/
def defaultArgs : Args := {}

/-- Result of a whole run of `main`. -/
inductive RunResult
  | showedHelp
  | configError
  | ran (events : List Ev) (outcome : Except PyErr Unit)

/-- Lines 146-177 of vfx.py, `main` after argument parsing (the
`check_ffmpeg` presence probe and the always-false `isinstance` check of
lines 173-175 are elided): show help, or reject the configuration when
`args.N != 16 and args.T != 0`, or run `process_folder`. -/
def main_model (args : Args) (files : List FileWorld) : RunResult :=
  if args.help then .showedHelp
  else if args.N ≠ 16 ∧ args.T ≠ 0 then .configError
  else
    let r := process_folder files args.prompt args.same_dir args.N args.T args.X args.Y
    .ran r.1 r.2

/-- Timestamps of the per-frame fallback invocations in a trace. -/
def fallbackTimestamps (evs : List Ev) : List ℚ :=
  evs.filterMap (fun e =>
    match e with
    | .fallbackRun _ _ t _ => some t
    | _ => none)

/-- Recognizer for single-pass ffmpeg events. -/
def isFastRun : Ev → Bool
  | .fastRun _ _ => true
  | _ => false

/-- Recognizer for entries into the fallback extractor. -/
def isFallbackCall : Ev → Bool
  | .fallbackCall _ => true
  | _ => false

/-- Recognizer for per-frame fallback ffmpeg events. -/
def isFallbackRun : Ev → Bool
  | .fallbackRun _ _ _ _ => true
  | _ => false

/-- Sample environment: a video whose fast path fails, probed duration 10,
every per-frame fallback invocation failing as well. -/
def wFF : FileWorld :=
  { path := "clip.mp4", dir := ".", stem := "clip", response := 'y',
    existingPaths := [], probe1 := some 10, probe2 := some 10,
    fastExit := 1, fallbackExit := fun _ => 1 }

/-- Sample environment: a healthy video, probed duration 10, fast path
succeeds. -/
def wGood : FileWorld :=
  { path := "good.mp4", dir := ".", stem := "good", response := 'y',
    existingPaths := [], probe1 := some 10, probe2 := some 10,
    fastExit := 0, fallbackExit := fun _ => 0 }

/-- Sample environment: a video on which ffprobe prints non-numeric
output, so `float` raises ValueError. -/
def wBadProbe : FileWorld :=
  { path := "bad.mp4", dir := ".", stem := "bad", response := 'y',
    existingPaths := [], probe1 := none, probe2 := none,
    fastExit := 0, fallbackExit := fun _ => 0 }

/-- Parsed arguments of a run where both -N and -T carry non-default
values. -/
def argsBoth : Args := { N := 5, T := 5 }

/-! ## Helper lemmas -/

/-- Normal form of the fallback schedule when the probe parses: the
timestamps are `i * (d / frame_count)` for `i` below `frame_count`. -/
lemma fallback_timestamps_eq (w : FileWorld) (width height : ℤ) (d : ℚ) (n : ℤ)
    (hp : w.probe2 = some d) (hn : n ≠ 0) :
    fallbackTimestamps (extract_frames_fallback w n width height).1
      = (List.range n.toNat).map (fun i : ℕ => (i : ℚ) * (d / n)) := by
  have hcast : (n : ℚ) ≠ 0 := Int.cast_ne_zero.mpr hn
  simp only [extract_frames_fallback, parseFloat, hp, pyDiv, if_neg hcast,
    fallbackTimestamps, List.filterMap_cons, List.filterMap_map]
  rw [← List.filterMap_eq_map (fun i : ℕ => (i : ℚ) * (d / n))]
  rfl

/-- Full normal form of the fallback extractor when the probe parses. -/
lemma fallback_eq_of_probe (w : FileWorld) (fc width height : ℤ) (d : ℚ)
    (hp : w.probe2 = some d) (hfc : fc ≠ 0) :
    extract_frames_fallback w fc width height
      = (Ev.probe w.path :: (List.range fc.toNat).map (fun i =>
          Ev.fallbackRun w.path i ((i : ℚ) * (d / fc))
            (appendScale (selectVf ((i : ℚ) * (d / fc))) width height)), .ok ()) := by
  have hcast : (fc : ℚ) ≠ 0 := Int.cast_ne_zero.mpr hfc
  simp only [extract_frames_fallback, parseFloat, hp, pyDiv, if_neg hcast]

/-- Case analysis on the fallback extractor: it either stops at the probe
with an exception or performs the per-frame runs. -/
lemma fallback_events_cases (w : FileWorld) (fc width height : ℤ) :
    (∃ e, extract_frames_fallback w fc width height = ([Ev.probe w.path], .error e))
    ∨ (∃ interval : ℚ, extract_frames_fallback w fc width height
        = (Ev.probe w.path :: (List.range fc.toNat).map (fun i =>
            Ev.fallbackRun w.path i ((i : ℚ) * interval)
              (appendScale (selectVf ((i : ℚ) * interval)) width height)), .ok ())) := by
  unfold extract_frames_fallback
  split
  · exact Or.inl ⟨_, rfl⟩
  · split
    · exact Or.inl ⟨_, rfl⟩
    · exact Or.inr ⟨_, rfl⟩

/-- The fallback extractor emits no single-pass ffmpeg event and no
fallback-entry marker of its own. -/
lemma fallback_counts (w : FileWorld) (fc width height : ℤ) :
    (extract_frames_fallback w fc width height).1.countP isFastRun = 0
    ∧ (extract_frames_fallback w fc width height).1.countP isFallbackCall = 0 := by
  rcases fallback_events_cases w fc width height with ⟨e, he⟩ | ⟨interval, he⟩
  · rw [he]; simp [isFastRun, isFallbackCall]
  · rw [he]
    constructor
    · apply List.countP_eq_zero.mpr
      intro a ha
      simp only [List.mem_cons, List.mem_map] at ha
      rcases ha with rfl | ⟨i, hi, rfl⟩ <;> simp [isFastRun]
    · apply List.countP_eq_zero.mpr
      intro a ha
      simp only [List.mem_cons, List.mem_map] at ha
      rcases ha with rfl | ⟨i, hi, rfl⟩ <;> simp [isFallbackCall]

/-- Reduction of `extract_frames` when planning succeeds and the fast
ffmpeg call exits non-zero. -/
lemma extract_frames_fail_eq (w : FileWorld) (fc ti width height : ℤ)
    (evs : List Ev) (vf : String)
    (hpl : planFast w fc ti = (evs, .ok vf)) (hfail : w.fastExit ≠ 0) :
    extract_frames w fc ti width height
      = (evs ++ [Ev.fastRun w.path (appendScale vf width height), Ev.fallbackCall w.path]
          ++ (extract_frames_fallback w fc width height).1,
        (extract_frames_fallback w fc width height).2) := by
  unfold extract_frames
  rw [hpl]
  dsimp only
  rw [if_pos hfail]

/-- Reduction of `extract_frames` when planning raises: the exception
propagates untouched. -/
lemma extract_frames_err_eq (w : FileWorld) (fc ti width height : ℤ)
    (evs : List Ev) (e : PyErr)
    (hpl : planFast w fc ti = (evs, .error e)) :
    extract_frames w fc ti width height = (evs, .error e) := by
  unfold extract_frames
  rw [hpl]

/-- One step of the batch driver. -/
lemma process_folder_cons (w : FileWorld) (rest : List FileWorld) (prompt same_dir : Bool)
    (fc ti width height : ℤ) :
    process_folder (w :: rest) prompt same_dir fc ti width height
      = (match (process_file w prompt same_dir fc ti width height).2 with
        | .error e => ((process_file w prompt same_dir fc ti width height).1, .error e)
        | .ok .aborted => ((process_file w prompt same_dir fc ti width height).1, .ok ())
        | .ok _ =>
          ((process_file w prompt same_dir fc ti width height).1
              ++ (process_folder rest prompt same_dir fc ti width height).1,
            (process_folder rest prompt same_dir fc ti width height).2)) := rfl

/-- Injectivity of `Nat.digitChar` on single digits. -/
lemma digitChar_injOn : ∀ a < 10, ∀ b < 10, Nat.digitChar a = Nat.digitChar b → a = b := by
  decide

/-- The fueled digit accumulator of `Nat.repr` agrees with `Nat.digits`
for positive inputs and sufficient fuel. -/
lemma toDigitsCore_eq_digits (fuel : ℕ) : ∀ (n : ℕ) (ds : List Char), 0 < n → n ≤ fuel →
    Nat.toDigitsCore 10 fuel n ds = ((Nat.digits 10 n).map Nat.digitChar).reverse ++ ds := by
  induction fuel with
  | zero => intro n ds hn hf; omega
  | succ fuel ih =>
    intro n ds hn hf
    simp only [Nat.toDigitsCore]
    by_cases h10 : n / 10 = 0
    · have hlt : n < 10 := by omega
      rw [if_pos h10, Nat.digits_of_lt 10 n (by omega) hlt, Nat.mod_eq_of_lt hlt]
      simp
    · have h1 : 0 < n / 10 := Nat.pos_of_ne_zero h10
      have h2 : n / 10 ≤ fuel := by
        have := Nat.div_lt_self hn (by norm_num : 1 < 10)
        omega
      rw [if_neg h10, ih (n / 10) _ h1 h2,
        Nat.digits_def' (by norm_num : 1 < 10) hn]
      simp

/-- Decimal representation of a positive number, via `Nat.digits`. -/
lemma repr_eq_digits (n : ℕ) (hn : 0 < n) :
    Nat.repr n = (((Nat.digits 10 n).map Nat.digitChar).reverse).asString := by
  unfold Nat.repr Nat.toDigits
  rw [toDigitsCore_eq_digits (n + 1) n [] hn (by omega)]
  simp

/-- Mapping `Nat.digitChar` over digit lists is injective. -/
lemma map_digitChar_cancel : ∀ (l1 l2 : List ℕ), (∀ x ∈ l1, x < 10) → (∀ x ∈ l2, x < 10) →
    l1.map Nat.digitChar = l2.map Nat.digitChar → l1 = l2 := by
  intro l1
  induction l1 with
  | nil => intro l2 _ _ h; cases l2 with
    | nil => rfl
    | cons b t => simp at h
  | cons a l ih =>
    intro l2 h1 h2 h
    cases l2 with
    | nil => simp at h
    | cons b t =>
      simp only [List.map_cons, List.cons.injEq] at h
      have hab : a = b :=
        digitChar_injOn a (h1 a (by simp)) b (h2 b (by simp)) h.1
      rw [hab, ih t (fun x hx => h1 x (by simp [hx])) (fun x hx => h2 x (by simp [hx])) h.2]

/-- Distinct numbers print distinctly. -/
lemma natRepr_injective : Function.Injective Nat.repr := by
  have key : ∀ m n : ℕ, 0 < m → 0 < n → Nat.repr m = Nat.repr n → m = n := by
    intro m n hm hn h
    rw [repr_eq_digits m hm, repr_eq_digits n hn] at h
    have h2 := List.reverse_injective (List.asString_inj.mp h)
    have h3 := map_digitChar_cancel _ _
      (fun x hx => Nat.digits_lt_base (by norm_num) hx)
      (fun x hx => Nat.digits_lt_base (by norm_num) hx) h2
    exact Nat.digits.injective 10 h3
  have zkey : ∀ n : ℕ, 0 < n → Nat.repr 0 ≠ Nat.repr n := by
    intro n hn h
    have h0 : Nat.repr 0 = List.asString ['0'] := rfl
    rw [h0, repr_eq_digits n hn] at h
    have h1 := (List.asString_inj.mp h).symm
    have h2 : (Nat.digits 10 n).map Nat.digitChar = ['0'] := by
      have h2a := congrArg List.reverse h1
      simpa using h2a
    cases hd : Nat.digits 10 n with
    | nil => rw [hd] at h2; simp at h2
    | cons d t =>
      rw [hd] at h2
      simp only [List.map_cons, List.cons.injEq] at h2
      have ht : t = [] := List.map_eq_nil_iff.mp h2.2
      have hd0 : d = 0 := digitChar_injOn d
        (Nat.digits_lt_base (by norm_num) (hd ▸ List.mem_cons_self d t)) 0 (by norm_num)
        (by rw [h2.1]; rfl)
      have hn0 : n = 0 := by
        have h3 := Nat.ofDigits_digits 10 n
        rw [hd, ht, hd0] at h3
        simpa [Nat.ofDigits] using h3.symm
      omega
  intro m n h
  rcases Nat.eq_zero_or_pos m with hm | hm <;> rcases Nat.eq_zero_or_pos n with hn | hn
  · omega
  · exact absurd (hm ▸ h) (zkey n hn)
  · exact absurd (hn ▸ h.symm) (zkey m hm)
  · exact key m n hm hn h

/-- Appending on the left is cancellable for strings. -/
lemma string_append_left_cancel (a s t : String) (h : a ++ s = a ++ t) : s = t := by
  have hd : a.data ++ s.data = a.data ++ t.data := by
    have h2 := congrArg String.data h
    simpa [String.data_append] using h2
  exact String.ext (List.append_cancel_left hd)

/-- Printed positive numbers are non-empty strings. -/
lemma natRepr_length_pos (k : ℕ) : 0 < (Nat.repr (k + 1)).length := by
  have hne : Nat.digits 10 (k + 1) ≠ [] :=
    Nat.digits_ne_nil_iff_ne_zero.mpr (by omega)
  have hlen : (Nat.repr (k + 1)).length = (Nat.digits 10 (k + 1)).length := by
    rw [repr_eq_digits (k + 1) (by omega)]
    show ((Nat.digits 10 (k + 1)).map Nat.digitChar).reverse.length = _
    simp
  have hpos : 0 < (Nat.digits 10 (k + 1)).length := List.length_pos.mpr hne
  omega

/-- The candidate directory names are pairwise distinct. -/
lemma allocCandidate_injective (base : String) :
    Function.Injective (allocCandidate base) := by
  have hlen : ∀ k : ℕ, base.length < (allocCandidate base (k + 1)).length := by
    intro k
    have h1 : ("_" : String).length = 1 := rfl
    have h2 := natRepr_length_pos k
    simp only [allocCandidate, String.length_append]
    omega
  intro j k h
  match j, k with
  | 0, 0 => rfl
  | 0, k + 1 =>
    exfalso
    have := hlen k
    rw [← h] at this
    exact lt_irrefl _ this
  | j + 1, 0 =>
    exfalso
    have := hlen j
    rw [h] at this
    exact lt_irrefl _ this
  | j + 1, k + 1 =>
    simp only [allocCandidate, String.append_assoc] at h
    have h2 := string_append_left_cancel _ _ _ h
    have h3 := string_append_left_cancel "_" _ _ h2
    have := natRepr_injective h3
    omega

/-- Pigeonhole: among the first `existing.length + 1` candidates at least
one is unused. -/
lemma exists_candidate_not_mem (existing : List String) (base : String) :
    ∃ k, k ≤ existing.length ∧ allocCandidate base k ∉ existing := by
  by_contra hc
  push_neg at hc
  have hsub : (Finset.range (existing.length + 1)).image (allocCandidate base)
      ⊆ existing.toFinset := by
    intro s hs
    rw [Finset.mem_image] at hs
    obtain ⟨k, hk, rfl⟩ := hs
    rw [Finset.mem_range] at hk
    exact List.mem_toFinset.mpr (hc k (by omega))
  have hcard := Finset.card_le_card hsub
  rw [Finset.card_image_of_injective _ (allocCandidate_injective base),
    Finset.card_range] at hcard
  have := existing.toFinset_card_le
  omega

/-- The fueled while-loop reaches the first unused candidate whenever the
fuel covers its index. -/
lemma allocLoop_finds (existing : List String) (base : String) (k : ℕ)
    (hk : allocCandidate base k ∉ existing)
    (hmin : ∀ j, j < k → allocCandidate base j ∈ existing) :
    ∀ fuel j, j ≤ k → k < j + fuel →
      allocLoop existing base (allocCandidate base j) (j + 1) fuel
        = allocCandidate base k := by
  intro fuel
  induction fuel with
  | zero => intro j h1 h2; omega
  | succ fuel ih =>
    intro j h1 h2
    rw [allocLoop]
    by_cases hj : j = k
    · subst hj
      rw [if_neg hk]
    · have hjk : j < k := by omega
      rw [if_pos (hmin j hjk)]
      have heq : base ++ "_" ++ Nat.repr (j + 1) = allocCandidate base (j + 1) := rfl
      rw [heq]
      exact ih (j + 1) (by omega) (by omega)

/-! ## Claims -/

/-- Claim C1: for every positive duration `d` and positive count `n`, the
fallback schedule computed in `extract_frames_fallback` has exactly `n`
timestamps, strictly increasing, the first being `0` and the `i`-th being
`i * (d / n)`; in particular `d = 10`, `n = 5` yields `[0, 2, 4, 6, 8]`. -/
theorem c1_planByCount_schedule (w : FileWorld) (width height : ℤ) (d : ℚ) (n : ℤ)
    (hp : w.probe2 = some d) (hd : 0 < d) (hn : 0 < n) :
    ((fallbackTimestamps (extract_frames_fallback w n width height).1).length = n.toNat
    ∧ (fallbackTimestamps (extract_frames_fallback w n width height).1).head? = some 0
    ∧ List.Pairwise (· < ·) (fallbackTimestamps (extract_frames_fallback w n width height).1)
    ∧ ∀ i, i < n.toNat →
        (fallbackTimestamps (extract_frames_fallback w n width height).1)[i]?
          = some ((i : ℚ) * (d / n)))
    ∧ fallbackTimestamps (extract_frames_fallback wFF 5 0 0).1 = [0, 2, 4, 6, 8] := by
  constructor
  · rw [fallback_timestamps_eq w width height d n hp (by omega)]
    have hdn : 0 < d / (n : ℚ) := div_pos hd (by exact_mod_cast hn)
    refine ⟨by simp, ?_, ?_, ?_⟩
    · obtain ⟨m, hm⟩ : ∃ m, n.toNat = m + 1 := ⟨n.toNat - 1, by omega⟩
      rw [hm, List.head?_map, List.head?_range]
      simp
    · refine (List.pairwise_map).mpr ?_
      refine (List.pairwise_lt_range n.toNat).imp ?_
      intro a b hab
      exact mul_lt_mul_of_pos_right (by exact_mod_cast hab) hdn
    · intro i hi
      simp [List.getElem?_map, List.getElem?_range hi]
  · have h5 : (5 : ℤ).toNat = 5 := rfl
    rw [fallback_timestamps_eq wFF 0 0 10 5 rfl (by norm_num), h5]
    norm_num [List.range_succ]

/-- Witness for C1 at duration 10 and count 5. -/
theorem c1_planByCount_schedule_witness :
    (0 : ℚ) < 10 ∧ (0 : ℤ) < 5
    ∧ (fallbackTimestamps (extract_frames_fallback wFF 5 0 0).1).length = 5 :=
  ⟨by decide, by decide,
    (c1_planByCount_schedule wFF 0 0 10 5 rfl (by decide) (by decide)).1.1⟩

/-- Claim C2 (code bug evidence): with `frame_count = 0` and no interval,
the planning of `extract_frames` performs `duration / 0` and raises
ZeroDivisionError instead of selecting an all-frames mode, and the whole
run aborts with that arithmetic fault. -/
theorem c2_zero_count_zero_division :
    planFast wFF 0 0 = ([Ev.probe "clip.mp4"], .error .zeroDivision)
    ∧ (extract_frames wFF 0 0 0 0).2 = .error .zeroDivision
    ∧ (process_folder [wGood] false false 0 0 0 0).2 = .error .zeroDivision :=
  ⟨rfl, rfl, rfl⟩

/-- Claim C3, counterexample: under interval policy 3 on a probed duration
of 10, the fallback issues 16 per-timestamp invocations (the unchanged
count parameter), not `ceil(10 / 3) = 4`. -/
theorem c3_fallback_ignores_interval_cex :
    (extract_frames wFF 16 3 0 0).1.countP isFallbackRun = 16
    ∧ ⌈(10 : ℚ) / 3⌉ = 4 ∧ (16 : ℤ) ≠ 4 :=
  ⟨by decide, by rw [Int.ceil_eq_iff]; norm_num, by decide⟩

/-- Claim C3, amended: after a fast-path failure under an interval policy
the fallback re-queries the duration `d` but derives its schedule from the
unchanged by-count parameter: `frame_count` invocations at timestamps
`i * (d / frame_count)`, the interval being ignored. -/
theorem c3_fallback_uses_count_amended (w : FileWorld) (fc ti width height : ℤ) (d : ℚ)
    (hti : 0 < ti) (hfail : w.fastExit ≠ 0) (hp : w.probe2 = some d) (hfc : fc ≠ 0) :
    fallbackTimestamps (extract_frames w fc ti width height).1
      = (List.range fc.toNat).map (fun i : ℕ => (i : ℚ) * (d / fc))
    ∧ (extract_frames w fc ti width height).1.countP isFallbackRun = fc.toNat := by
  have hpl : planFast w fc ti = ([], .ok s!"fps=1/{ti}") := by simp [planFast, hti]
  have hfb := fallback_eq_of_probe w fc width height d hp hfc
  rw [extract_frames_fail_eq w fc ti width height _ _ hpl hfail, hfb]
  constructor
  · simp only [fallbackTimestamps, List.filterMap_append, List.filterMap_cons,
      List.filterMap_map, List.filterMap_nil]
    rw [← List.filterMap_eq_map (fun i : ℕ => (i : ℚ) * (d / fc))]
    rfl
  · simp only [List.countP_append, List.countP_cons, List.countP_map, List.countP_nil]
    have h1 : (List.range fc.toNat).countP
        ((fun e => isFallbackRun e) ∘ (fun i =>
          Ev.fallbackRun w.path i ((i : ℚ) * (d / fc))
            (appendScale (selectVf ((i : ℚ) * (d / fc))) width height))) = fc.toNat := by
      rw [show ((fun e => isFallbackRun e) ∘ (fun i : ℕ =>
          Ev.fallbackRun w.path i ((i : ℚ) * (d / fc))
            (appendScale (selectVf ((i : ℚ) * (d / fc))) width height)))
          = (fun _ : ℕ => true) from rfl]
      rw [List.countP_true, List.length_range]
    simp [isFallbackRun, isFastRun, isFallbackCall, h1]

/-- Witness for the amended C3 at interval 3, duration 10, count 16. -/
theorem c3_fallback_uses_count_amended_witness :
    (0 : ℤ) < 3
    ∧ fallbackTimestamps (extract_frames wFF 16 3 0 0).1
      = (List.range (16 : ℤ).toNat).map (fun i : ℕ => (i : ℚ) * (10 / ((16 : ℤ) : ℚ))) :=
  ⟨by decide,
    (c3_fallback_uses_count_amended wFF 16 3 0 0 10 (by decide) (by decide) rfl
      (by decide)).1⟩

/-- Claim C4, counterexample: a batch of two videos where ffprobe prints
non-numeric output for the first stops at the uncaught ValueError; the
second file is never touched and no diagnostic is printed. -/
theorem c4_probe_error_aborts_batch_cex :
    (process_folder [wBadProbe, wGood] false false 16 0 0 0).1
      = [Ev.alloc "./bad_frames", Ev.probe "bad.mp4"]
    ∧ (process_folder [wBadProbe, wGood] false false 16 0 0 0).2 = .error .valueError :=
  ⟨by decide, rfl⟩

/-- Claim C4, amended: when the duration probe of a file parses as
non-numeric under the by-count policy, the resulting ValueError is not
caught anywhere: the whole batch aborts after that file's probe, with the
remaining files unprocessed. -/
theorem c4_probe_error_aborts_batch_amended (w : FileWorld) (rest : List FileWorld)
    (same_dir : Bool) (fc ti width height : ℤ)
    (hext : hasVideoExt w.path = true) (hti : ti ≤ 0) (hp : w.probe1 = none) :
    (process_folder (w :: rest) false same_dir fc ti width height).2 = .error .valueError
    ∧ (process_folder (w :: rest) false same_dir fc ti width height).1
      = [Ev.alloc (if same_dir then w.dir
            else allocateOutputDir w.existingPaths (joinPath w.dir (w.stem ++ "_frames"))),
         Ev.probe w.path] := by
  have hti2 : ¬ 0 < ti := by omega
  have hpl : planFast w fc ti = ([Ev.probe w.path], .error .valueError) := by
    simp [planFast, hti2, parseFloat, hp]
  have hex := extract_frames_err_eq w fc ti width height _ _ hpl
  have hpf : process_file w false same_dir fc ti width height
      = ([Ev.alloc (if same_dir then w.dir
            else allocateOutputDir w.existingPaths (joinPath w.dir (w.stem ++ "_frames"))),
          Ev.probe w.path], .error .valueError) := by
    unfold process_file
    rw [if_neg (by simp [hext])]
    simp only [Bool.false_and, Bool.false_eq_true, if_false]
    rw [hex]
    rfl
  rw [process_folder_cons, hpf]
  exact ⟨rfl, rfl⟩

/-- Witness for the amended C4 on the concrete two-file batch. -/
theorem c4_probe_error_aborts_batch_amended_witness :
    hasVideoExt "bad.mp4" = true
    ∧ (process_folder [wBadProbe, wGood] false false 16 0 0 0).2 = .error .valueError :=
  ⟨by decide,
    (c4_probe_error_aborts_batch_amended wBadProbe [wGood] false 16 0 0 0 (by decide)
      (by decide) rfl).1⟩

/-- Claim C5: whenever planning succeeds, the fast ffmpeg call happens
exactly once and the fallback extractor is entered exactly once if the
fast exit status is non-zero and never otherwise. -/
theorem c5_fast_once_fallback_iff (w : FileWorld) (fc ti width height : ℤ)
    (hplan : 0 < ti ∨ (w.probe1 ≠ none ∧ fc ≠ 0)) :
    (extract_frames w fc ti width height).1.countP isFastRun = 1
    ∧ (extract_frames w fc ti width height).1.countP isFallbackCall
        = (if w.fastExit ≠ 0 then 1 else 0) := by
  have hplanok : ∃ evs vf, planFast w fc ti = (evs, .ok vf)
      ∧ evs.countP isFastRun = 0 ∧ evs.countP isFallbackCall = 0 := by
    by_cases hti : 0 < ti
    · exact ⟨[], s!"fps=1/{ti}", by simp [planFast, hti], by simp, by simp⟩
    · rcases hplan with hti2 | ⟨hp, hfc⟩
      · omega
      · obtain ⟨d, hd⟩ := Option.ne_none_iff_exists'.mp hp
        have hcast : (fc : ℚ) ≠ 0 := Int.cast_ne_zero.mpr hfc
        refine ⟨[Ev.probe w.path], s!"fps=1/{d / (fc : ℚ)}", ?_,
          by simp [isFastRun], by simp [isFallbackCall]⟩
        simp [planFast, hti, parseFloat, hd, pyDiv, hcast]
  obtain ⟨evs, vf, hpl, hf0, hc0⟩ := hplanok
  unfold extract_frames
  rw [hpl]
  obtain ⟨hfb1, hfb2⟩ := fallback_counts w fc width height
  by_cases hfe : w.fastExit = 0
  · simp [hfe, List.countP_append, List.countP_cons, hf0, hc0, isFastRun, isFallbackCall]
  · simp [hfe, List.countP_append, List.countP_cons, hf0, hc0, hfb1, hfb2,
      isFastRun, isFallbackCall]

/-- Witness for C5 on a failing fast path under interval policy 3. -/
theorem c5_fast_once_fallback_iff_witness :
    (extract_frames wFF 16 3 0 0).1.countP isFastRun = 1
    ∧ (extract_frames wFF 16 3 0 0).1.countP isFallbackCall
        = (if wFF.fastExit ≠ 0 then 1 else 0) :=
  c5_fast_once_fallback_iff wFF 16 3 0 0 (Or.inl (by decide))

/-- Claim C6: the scaling-directive builder appends nothing when both
dimensions are 0, an exact stretch when both are positive, a width-fixed
auto-height directive when only the width is positive, a height-fixed
auto-width directive when only the height is positive, and whatever it
produces is appended after the sampling filter. -/
theorem c6_scale_directive (s : String) (w h : ℤ) :
    (∃ t, appendScale s w h = s ++ t)
    ∧ (w = 0 ∧ h = 0 → appendScale s w h = s)
    ∧ (0 < w ∧ 0 < h → appendScale s w h = s ++ s!",scale={w}:{h}")
    ∧ (0 < w ∧ h ≤ 0 → appendScale s w h = s ++ s!",scale={w}:-1")
    ∧ (w ≤ 0 ∧ 0 < h → appendScale s w h = s ++ s!",scale=-1:{h}") := by
  unfold appendScale
  refine ⟨?_, ?_, ?_, ?_, ?_⟩
  · split
    · exact ⟨_, rfl⟩
    · split
      · exact ⟨_, rfl⟩
      · split
        · exact ⟨_, rfl⟩
        · exact ⟨"", by simp⟩
  · rintro ⟨rfl, rfl⟩; simp
  · rintro ⟨hw, hh⟩; simp [hw, hh]
  · rintro ⟨hw, hh⟩
    rw [if_neg (by omega), if_pos hw]
  · rintro ⟨hw, hh⟩
    rw [if_neg (by omega), if_neg (by omega), if_pos hh]

/-- Witness for C6 at 640 by 480 and at 0 by 0. -/
theorem c6_scale_directive_witness :
    appendScale "fps=1/2" 640 480 = "fps=1/2" ++ s!",scale={(640 : ℤ)}:{(480 : ℤ)}"
    ∧ appendScale "fps=1/2" 0 0 = "fps=1/2" :=
  ⟨(c6_scale_directive "fps=1/2" 640 480).2.2.1 ⟨by decide, by decide⟩,
    (c6_scale_directive "fps=1/2" 0 0).2.1 ⟨rfl, rfl⟩⟩

/-- Claim C7: for every finite set of existing paths, the dedicated-
subfolder allocator returns a path that does not exist, trying the base
candidate first and then `_1`, `_2`, ... in increasing order and stopping
at the first unused one. -/
theorem c7_alloc_first_unused (existing : List String) (base : String) :
    ∃ k, allocateOutputDir existing base = allocCandidate base k
      ∧ allocCandidate base k ∉ existing
      ∧ ∀ j, j < k → allocCandidate base j ∈ existing := by
  have hex : ∃ k, allocCandidate base k ∉ existing := by
    obtain ⟨k, _, hk⟩ := exists_candidate_not_mem existing base
    exact ⟨k, hk⟩
  classical
  refine ⟨Nat.find hex, ?_, Nat.find_spec hex, ?_⟩
  · have hle : Nat.find hex ≤ existing.length := by
      obtain ⟨k, hkle, hk⟩ := exists_candidate_not_mem existing base
      exact le_trans (Nat.find_min' hex hk) hkle
    have h0 : allocateOutputDir existing base
        = allocLoop existing base (allocCandidate base 0) (0 + 1)
            (existing.length + 1) := rfl
    rw [h0]
    exact allocLoop_finds existing base (Nat.find hex) (Nat.find_spec hex)
      (fun j hj => not_not.mp (Nat.find_min hex hj)) (existing.length + 1) 0
      (by omega) (by omega)
  · exact fun j hj => not_not.mp (Nat.find_min hex hj)

/-- Claim C8, counterexample: a command line carrying both switches, with
the count at its default value 16 (`-N 16 -T 5`), parses to exactly the
record below; the run is not rejected — it processes the file and touches
the filesystem. -/
theorem c8_explicit_default_not_rejected_cex :
    main_model { N := 16, T := 5 } [wGood]
      = .ran [Ev.alloc "./good_frames", Ev.fastRun "good.mp4" "fps=1/5"] (.ok ())
    ∧ [Ev.alloc "./good_frames", Ev.fastRun "good.mp4" "fps=1/5"] ≠ ([] : List Ev) :=
  ⟨rfl, by decide⟩

/-- Claim C8, amended: the run aborts with the configuration error, before
any file is touched, exactly when the parsed count differs from its
default 16 and the interval is non-zero; an explicit `-N 16` cannot be
distinguished from the default and is not rejected. -/
theorem c8_config_check_amended (args : Args) (files : List FileWorld)
    (hN : args.N ≠ 16) (hT : args.T ≠ 0) (hH : args.help = false) :
    main_model args files = .configError := by
  unfold main_model
  rw [if_neg (by simp [hH]), if_pos ⟨hN, hT⟩]

/-- Witness for the amended C8 with `-N 5 -T 5`. -/
theorem c8_config_check_amended_witness :
    main_model argsBoth [wGood] = .configError :=
  c8_config_check_amended argsBoth [wGood] (by decide) (by decide) rfl

/-- Claim C9, counterexample: a file on which the fast path fails and
every per-frame fallback invocation also exits non-zero still finishes
with a success outcome — no failure indicator exists — and the batch
continues to the next file. -/
theorem c9_fallback_failures_ignored_cex :
    wFF.fastExit = 1 ∧ wFF.fallbackExit = (fun _ => 1)
    ∧ (extract_frames wFF 3 0 0 0).2 = .ok ()
    ∧ (process_folder [wFF, wGood] false false 3 0 0 0).2 = .ok ()
    ∧ Ev.probe "good.mp4" ∈ (process_folder [wFF, wGood] false false 3 0 0 0).1 :=
  ⟨rfl, rfl, rfl, rfl, by decide⟩

/-- Claim C9, amended: the fallback never inspects the exit statuses of
its per-frame invocations, so a file whose fast path failed completes
with a success outcome whatever those statuses are, and the batch simply
continues with the remaining files. -/
theorem c9_fallback_failures_ignored_amended (w : FileWorld) (fc ti width height : ℤ)
    (d : ℚ) (hfail : w.fastExit ≠ 0) (hp : w.probe2 = some d) (hfc : fc ≠ 0)
    (hplan : 0 < ti ∨ w.probe1 ≠ none) :
    (extract_frames w fc ti width height).2 = .ok ()
    ∧ (hasVideoExt w.path = true → ∀ (rest : List FileWorld) (same_dir : Bool),
        (process_folder (w :: rest) false same_dir fc ti width height).2
          = (process_folder rest false same_dir fc ti width height).2) := by
  have hfb := fallback_eq_of_probe w fc width height d hp hfc
  have hplanok : ∃ evs vf, planFast w fc ti = (evs, .ok vf) := by
    by_cases hti : 0 < ti
    · exact ⟨[], s!"fps=1/{ti}", by simp [planFast, hti]⟩
    · rcases hplan with hti2 | hp1
      · omega
      · obtain ⟨d1, hd1⟩ := Option.ne_none_iff_exists'.mp hp1
        have hcast : (fc : ℚ) ≠ 0 := Int.cast_ne_zero.mpr hfc
        exact ⟨[Ev.probe w.path], s!"fps=1/{d1 / (fc : ℚ)}",
          by simp [planFast, hti, parseFloat, hd1, pyDiv, hcast]⟩
  obtain ⟨evs, vf, hpl⟩ := hplanok
  have hok : (extract_frames w fc ti width height).2 = .ok () := by
    rw [extract_frames_fail_eq w fc ti width height _ _ hpl hfail, hfb]
  refine ⟨hok, fun hext rest same_dir => ?_⟩
  have hpf : (process_file w false same_dir fc ti width height).2 = .ok .done := by
    unfold process_file
    rw [if_neg (by simp [hext])]
    simp only [Bool.false_and, Bool.false_eq_true, if_false]
    simp [hok, Except.map]
  rw [process_folder_cons]
  rw [hpf]

/-- Witness for the amended C9 at count 3, duration 10. -/
theorem c9_fallback_failures_ignored_amended_witness :
    (extract_frames wFF 3 0 0 0).2 = .ok () :=
  (c9_fallback_failures_ignored_amended wFF 3 0 0 0 10 (by decide) rfl (by decide)
    (Or.inr (by decide))).1

/-- Claim C10: with no selection flag supplied the parsed defaults are
`N = 16` and `T = 0`; the interval policy is therefore inactive and both
the fast planner and the fallback schedule resolve to the by-count policy
with 16 evenly spaced frames, not to all-frames or interval mode. -/
theorem c10_default_policy :
    defaultArgs.N = 16 ∧ defaultArgs.T = 0 ∧ ¬ (0 < defaultArgs.T)
    ∧ (∀ w : FileWorld, ∀ d : ℚ, w.probe1 = some d →
        planFast w defaultArgs.N defaultArgs.T
          = ([Ev.probe w.path], .ok s!"fps=1/{d / (16 : ℚ)}"))
    ∧ (∀ w : FileWorld, ∀ d : ℚ, w.probe2 = some d →
        fallbackTimestamps (extract_frames_fallback w defaultArgs.N 0 0).1
          = (List.range 16).map (fun i : ℕ => (i : ℚ) * (d / 16))) := by
  refine ⟨rfl, rfl, by decide, ?_, ?_⟩
  · intro w d hp
    have h16 : ((16 : ℤ) : ℚ) ≠ 0 := by norm_num
    have h16b : ((16 : ℤ) : ℚ) = (16 : ℚ) := by norm_num
    simp [planFast, defaultArgs, parseFloat, hp, pyDiv, h16, h16b]
  · intro w d hp
    have h := fallback_timestamps_eq w 0 0 d 16 hp (by norm_num)
    have h16b : ((16 : ℤ) : ℚ) = (16 : ℚ) := by norm_num
    rw [show defaultArgs.N = (16 : ℤ) from rfl, h, h16b]
    rfl

/-- Witness for C10 on a probed duration of 10. -/
theorem c10_default_policy_witness :
    planFast wGood 16 0 = ([Ev.probe "good.mp4"], .ok s!"fps=1/{(10 : ℚ) / (16 : ℚ)}") :=
  c10_default_policy.2.2.2.1 wGood 10 rfl

end Vfx
